import Mathlib

/-!
Verification development for the cli-utils package (parser.ts, validator.ts).

Strings are modelled as lists of characters; each TypeScript function is
translated into a Lean function of the same name operating on that model.
JavaScript-specific behaviour that the translation depends on is recorded in
comments next to the definition it affects.
-/

namespace CliU

/-- Command-line strings are modelled as lists of characters. -/
abbrev Str := List Char

/-- Turns a Lean string literal into the character-list model. -/
def strL (s : String) : Str := s.toList

/-! ## Name transcoder (parser.ts, kebabToCamel / camelToKebab)

The source uses the global regexes -([a-z]) and ([A-Z]) together with
toUpperCase and toLowerCase.  The character classes are ASCII-only, so the
case maps are modelled on ASCII code points. -/

/-- Matches the regex character class [a-z]: code points 97 to 122. -/
def isLowerAscii (c : Char) : Bool := 97 ≤ c.toNat && c.toNat ≤ 122

/-- Matches the regex character class [A-Z]: code points 65 to 90. -/
def isUpperAscii (c : Char) : Bool := 65 ≤ c.toNat && c.toNat ≤ 90

/-- Matches the regex character class [0-9]: code points 48 to 57. -/
def isDigitAscii (c : Char) : Bool := 48 ≤ c.toNat && c.toNat ≤ 57

/-- ASCII upper-casing of a single character, as toUpperCase acts on [a-z]. -/
def asciiUpper (c : Char) : Char :=
  if isLowerAscii c then Char.ofNat (c.toNat - 32) else c

/-- ASCII lower-casing of a single character, as toLowerCase acts on [A-Z]. -/
def asciiLower (c : Char) : Char :=
  if isUpperAscii c then Char.ofNat (c.toNat + 32) else c

/-- Source: str.replace with the global regex -([a-z]) and the replacement
(_, letter) => letter.toUpperCase().  The global regex scans left to right;
a hyphen followed by a lowercase letter is replaced by the upper-cased
letter, any other character is kept and the scan advances one position. -/
def kebabToCamel : Str → Str
  | [] => []
  | [c] => [c]
  | c1 :: c2 :: rest =>
    if c1 = '-' ∧ isLowerAscii c2 = true then asciiUpper c2 :: kebabToCamel rest
    else c1 :: kebabToCamel (c2 :: rest)

/-- The replace step of camelToKebab: str.replace with the global regex
([A-Z]) and replacement "-$1" puts a hyphen in front of every ASCII
uppercase letter. -/
def hyphenateUppers : Str → Str
  | [] => []
  | c :: rest =>
    if isUpperAscii c then '-' :: c :: hyphenateUppers rest
    else c :: hyphenateUppers rest

/-- Source: the ([A-Z]) replacement above followed by .toLowerCase() applied
to the whole string. -/
def camelToKebab (s : Str) : Str := (hyphenateUppers s).map asciiLower

/-! ## Tokenizer (parser.ts, parseArgs / extractCommand / extractGlobalFlags) -/

/-- A RawArgs value is either a string or a boolean (types.ts, RawArgs). -/
inductive Value
  | str (s : Str)
  | bool (b : Bool)
deriving DecidableEq

/-- RawArgs: a key-value mapping in insertion order.  Mirrors a JavaScript
object literal: keys are unique, re-assignment updates in place. -/
abbrev RawArgs := List (Str × Value)

/-- JavaScript object assignment args[k] = v: update in place when the key
exists, append otherwise. -/
def setArg : RawArgs → Str → Value → RawArgs
  | [], k, v => [(k, v)]
  | (k0, v0) :: rest, k, v =>
    if k0 = k then (k0, v) :: rest else (k0, v0) :: setArg rest k v

/-- JavaScript property read args[k]: the value, or undefined (none). -/
def getArg (args : RawArgs) (k : Str) : Option Value :=
  (args.find? (fun p => p.1 == k)).map (fun p => p.2)

/-- Source: arg.startsWith("--"). -/
def hasDashDash : Str → Bool
  | '-' :: '-' :: _ => true
  | _ => false

/-- Source: key.startsWith("no-"). -/
def isNoKey : Str → Bool
  | 'n' :: 'o' :: '-' :: _ => true
  | _ => false

/-- The key part of arg.slice(2).split("="): everything before the first
equals sign. -/
def eqKey (s : Str) : Str := s.takeWhile (fun c => !(c == '='))

/-- The value part valueParts.join("="): everything after the first equals
sign (further equals signs are kept verbatim). -/
def eqVal (s : Str) : Str := (s.dropWhile (fun c => !(c == '='))).drop 1

/-- The loop body of parseArgs, with the accumulated args object.  The
value-consumption test mirrors the source condition
(nextArg && !nextArg.startsWith("--")): an empty-string next token is falsy
in JavaScript and is therefore not consumed. -/
def parseArgsGo : RawArgs → List Str → RawArgs
  | acc, [] => acc
  | acc, arg :: rest =>
    if hasDashDash arg then
      if arg.contains '=' then
        parseArgsGo
          (setArg acc (kebabToCamel (eqKey (arg.drop 2))) (Value.str (eqVal (arg.drop 2)))) rest
      else if isNoKey (arg.drop 2) then
        parseArgsGo (setArg acc (kebabToCamel ((arg.drop 2).drop 3)) (Value.bool false)) rest
      else
        match rest with
        | [] => parseArgsGo (setArg acc (kebabToCamel (arg.drop 2)) (Value.bool true)) []
        | next :: rest2 =>
          if next.isEmpty || hasDashDash next then
            parseArgsGo (setArg acc (kebabToCamel (arg.drop 2)) (Value.bool true)) (next :: rest2)
          else
            parseArgsGo (setArg acc (kebabToCamel (arg.drop 2)) (Value.str next)) rest2
    else parseArgsGo acc rest

/-- Source: parseArgs(argv), starting from the empty object. -/
def parseArgs (argv : List Str) : RawArgs := parseArgsGo [] argv

/-- Source: argv.find((arg) => !arg.startsWith("--")). -/
def extractCommand (argv : List Str) : Option Str :=
  argv.find? (fun arg => !hasDashDash arg)

/-- Global flags record (types.ts, GlobalFlags). -/
structure GlobalFlags where
  noCache : Bool
  help : Bool
  verbose : Bool
deriving DecidableEq

/-- Source test args.k === true || args.k === "true" for one global flag. -/
def flagTrue (args : RawArgs) (k : Str) : Bool :=
  getArg args k == some (Value.bool true) || getArg args k == some (Value.str (strL "true"))

/-- Source: extractGlobalFlags(args). -/
def extractGlobalFlags (args : RawArgs) : GlobalFlags :=
  { noCache := flagTrue args (strL "noCache")
    help := flagTrue args (strL "help")
    verbose := flagTrue args (strL "verbose") }

/-! ## Dispatcher (validator.ts, runCli)

The run is modelled as the list of observable actions it performs together
with the process exit code.  The command schema and the handler are the
external collaborators of the dispatcher, so a command is modelled by the
outcome of its safeParse call and the outcome of its handler call; the
client class is modelled by its capabilities (which optional methods it
has, and whether its constructor throws).

One JavaScript fact the translation depends on: process.exit() terminates
the Node.js process immediately, without unwinding the JavaScript stack.
A finally clause therefore does not run when a try or catch block reaches
process.exit().  This is encoded in runTryCatchFinallyJS below. -/

/-- Error outputs of runCli (console.error of a structured error object).
The message text is elided; only which error path emitted it is kept. -/
inductive ErrKind
  | unknownCommand
  | validationFailed
  | execFailed
deriving DecidableEq

/-- Observable actions of one dispatcher run, in order. -/
inductive Event
  | helpShown
  | commandLookup (name : Str)
  | errorOutput (k : ErrKind)
  | clientConstructed
  | disableCacheCalled
  | handlerCalled
  | resultOutput (r : Str)
  | disconnectCalled
deriving DecidableEq

/-- How a JavaScript block finishes: normal completion, an exception
propagating out, or process.exit (which ends the whole process). -/
inductive Completion
  | normal
  | threw
  | exited (code : Nat)
deriving DecidableEq

/-- Events performed by a block together with how it finished. -/
structure BlockRun where
  events : List Event
  completion : Completion
deriving DecidableEq

/-- Capability model of the ClientClass collaborator: whether new
ClientClass() throws, and which optional methods the instance has
(detected by the source via typeof checks). -/
structure ClientSpec where
  constructThrows : Bool
  hasDisableCache : Bool
  hasDisconnect : Bool
deriving DecidableEq

/-- Outcome of an awaited handler call: a result value or an exception. -/
inductive HandlerOutcome
  | ok (result : Str)
  | err (msg : Str)
deriving DecidableEq

/-- A registered command: the outcome of schema.safeParse on the raw args
(some typed-data token on success, none on failure, issues elided) and the
handler as a function of the typed data and the global flags. -/
structure Cmd where
  parse : RawArgs → Option Str
  handler : Str → GlobalFlags → HandlerOutcome

/-- The registry read commands[name] (keys are unique). -/
def lookupCmd (commands : List (Str × Cmd)) (name : Str) : Option Cmd :=
  (commands.find? (fun p => p.1 == name)).map (fun p => p.2)

/-- The try block of runCli (validator.ts lines 289-303): construct the
client, apply the no-cache global flag, run the handler, print the result
and call process.exit(0).  Returns the block run and whether the client
variable was assigned (needed by the finally clause). -/
def tryBlock (spec : ClientSpec) (cmd : Cmd) (data : Str) (g : GlobalFlags) :
    BlockRun × Bool :=
  if spec.constructThrows then
    (⟨[], Completion.threw⟩, false)
  else
    let ev1 : List Event :=
      if g.noCache && spec.hasDisableCache then
        [Event.clientConstructed, Event.disableCacheCalled]
      else [Event.clientConstructed]
    match cmd.handler data g with
    | HandlerOutcome.ok r =>
      (⟨ev1 ++ [Event.handlerCalled, Event.resultOutput r], Completion.exited 0⟩, true)
    | HandlerOutcome.err _ =>
      (⟨ev1 ++ [Event.handlerCalled], Completion.threw⟩, true)

/-- The catch block of runCli: console.error the structured error, then
process.exit(1). -/
def catchBlockRun : BlockRun :=
  ⟨[Event.errorOutput ErrKind.execFailed], Completion.exited 1⟩

/-- The finally clause body: call disconnect() when the client variable was
assigned and the instance has a disconnect method. -/
def finallyEvents (clientAssigned : Bool) (spec : ClientSpec) : List Event :=
  if clientAssigned && spec.hasDisconnect then [Event.disconnectCalled] else []

/-- JavaScript try/catch/finally semantics under Node.js process.exit: a
block that reached process.exit terminates the process at once, so neither
the catch handler nor the finally clause runs after it; the catch handler
runs on an exception; the finally clause runs on normal or exceptional
completion of the protected code. -/
def runTryCatchFinallyJS (t : BlockRun) (c : BlockRun) (fin : List Event) : BlockRun :=
  match t.completion with
  | Completion.exited code => ⟨t.events, Completion.exited code⟩
  | Completion.normal => ⟨t.events ++ fin, Completion.normal⟩
  | Completion.threw =>
    match c.completion with
    | Completion.exited code => ⟨t.events ++ c.events, Completion.exited code⟩
    | Completion.normal => ⟨t.events ++ c.events ++ fin, Completion.normal⟩
    | Completion.threw => ⟨t.events ++ c.events ++ fin, Completion.threw⟩

/-- Result of a whole run: its events and the process exit code. -/
structure RunResult where
  events : List Event
  exitCode : Nat
deriving DecidableEq

/-- Exit code of the process after runCli finishes: an explicit
process.exit wins; a normal return exits 0; an exception escaping runCli
is an unhandled rejection (exit 1 in current Node.js). -/
def completionExitCode : Completion → Nat
  | Completion.exited code => code
  | Completion.normal => 0
  | Completion.threw => 1

/-- JavaScript truthiness test !commandName: true for undefined and for
the empty string. -/
def isFalsyCommand : Option Str → Bool
  | none => true
  | some s => s.isEmpty

/-- The reserved command word "help". -/
def helpStr : Str := strL "help"

/-- The help short-circuit test of runCli (validator.ts line 261):
globals.help, or a falsy command token, or the reserved word help. -/
def helpCondition (globals : GlobalFlags) (commandName : Option Str) : Bool :=
  globals.help || isFalsyCommand commandName || commandName == some helpStr

/-- Source: runCli (validator.ts lines 250-316), taking the already sliced
argv (process.argv.slice(2)).  Steps in source order: tokenize, help
short-circuit, registry lookup, schema validation, then the
try/catch/finally block around client construction and handler
execution. -/
def runCli (commands : List (Str × Cmd)) (spec : ClientSpec) (argv : List Str) :
    RunResult :=
  let commandName := extractCommand argv
  let rawArgs := parseArgs argv
  let globals := extractGlobalFlags rawArgs
  if helpCondition globals commandName then
    ⟨[Event.helpShown], 0⟩
  else
    let name := commandName.getD []
    match lookupCmd commands name with
    | none =>
      ⟨[Event.commandLookup name, Event.errorOutput ErrKind.unknownCommand], 1⟩
    | some cmd =>
      match cmd.parse rawArgs with
      | none =>
        ⟨[Event.commandLookup name, Event.errorOutput ErrKind.validationFailed], 1⟩
      | some data =>
        let tb := tryBlock spec cmd data globals
        let b := runTryCatchFinallyJS tb.1 catchBlockRun (finallyEvents tb.2 spec)
        ⟨Event.commandLookup name :: b.events, completionExitCode b.completion⟩

/-! ## Coercion helpers (validator.ts, cliTypes.int)

The values reaching a preprocess callback come from a JavaScript property
read on RawArgs, so the input domain is: a string, a boolean, undefined,
or null.  The Number() conversion is modelled on plain decimal string
literals (optional sign, digits, optional fraction); every other string is
mapped to NaN, which is the conservative direction for the claims below
(they only evaluate it on decimal literals and on the empty string). -/

/-- A JavaScript value as seen by a preprocess callback. -/
inductive JSVal
  | str (s : Str)
  | jbool (b : Bool)
  | jnull
  | undef
deriving DecidableEq

/-- Output of the preprocess callback of cliTypes.int: undefined, NaN, or
a finite number (modelled as a rational). -/
inductive PreOut
  | undef
  | nan
  | num (q : ℚ)
deriving DecidableEq

/-- Numeric value of a digit string read in base 10. -/
def digitsVal (s : Str) : Nat := s.foldl (fun acc c => acc * 10 + (c.toNat - 48)) 0

/-- Value of the decimal literal ip.fp as a rational. -/
def decToRat (ip fp : Str) : ℚ :=
  mkRat (digitsVal ip * 10 ^ fp.length + digitsVal fp) (10 ^ fp.length)

/-- Unsigned decimal literal: digits, optionally a dot and more digits,
with at least one digit overall. -/
def parseDecCore (s : Str) : Option ℚ :=
  let ip := s.takeWhile isDigitAscii
  match s.dropWhile isDigitAscii with
  | [] => if ip.isEmpty then none else some (decToRat ip [])
  | '.' :: fp =>
    if (!ip.isEmpty || !fp.isEmpty) && fp.all isDigitAscii then some (decToRat ip fp)
    else none
  | _ => none

/-- Model of the JavaScript Number() conversion on strings, restricted to
plain decimal literals with an optional sign; Number("") is 0; a string
outside this fragment is mapped to none, standing for NaN. -/
def jsNumber : Str → Option ℚ
  | [] => some 0
  | '-' :: rest => (parseDecCore rest).map (fun q => -q)
  | '+' :: rest => parseDecCore rest
  | s => parseDecCore s

/-- The preprocess callback of cliTypes.int (validator.ts lines 333-338):
empty string, undefined and null become undefined; otherwise Number(val);
a non-integer result (including NaN) becomes NaN.  Number(true) is 1 and
Number(false) is 0, both integers. -/
def intPre : JSVal → PreOut
  | JSVal.str [] => PreOut.undef
  | JSVal.undef => PreOut.undef
  | JSVal.jnull => PreOut.undef
  | JSVal.str s =>
    match jsNumber s with
    | none => PreOut.nan
    | some q => if q.den = 1 then PreOut.num q else PreOut.nan
  | JSVal.jbool b => PreOut.num (if b then 1 else 0)

/-- Issues the inner z.number() schema can report.  Zod rejects undefined
with an invalid_type issue (received undefined, the missing-value case)
and NaN with an invalid_type issue (received nan). -/
inductive ZIssue
  | invalidTypeUndefined
  | invalidTypeNaN
  | notInt
  | tooSmall (minimum : ℚ)
  | tooBig (maximum : ℚ)
deriving DecidableEq

/-- Validation behaviour of z.number() with an optional .int() check and
optional .min() and .max() bounds, the external collaborator of
cliTypes.int.  A single issue is reported (the claims only use whether
validation rejects). -/
def zNumberValidate (isInt : Bool) (lo hi : Option ℚ) : PreOut → Except ZIssue ℚ
  | PreOut.undef => Except.error ZIssue.invalidTypeUndefined
  | PreOut.nan => Except.error ZIssue.invalidTypeNaN
  | PreOut.num q =>
    if isInt ∧ q.den ≠ 1 then Except.error ZIssue.notInt
    else
      match lo with
      | some l =>
        if q < l then Except.error (ZIssue.tooSmall l)
        else
          match hi with
          | some h => if h < q then Except.error (ZIssue.tooBig h) else Except.ok q
          | none => Except.ok q
      | none =>
        match hi with
        | some h => if h < q then Except.error (ZIssue.tooBig h) else Except.ok q
        | none => Except.ok q

/-- cliTypes.int(min?, max?) as a whole: preprocess, then the inner
z.number().int() with the optional bounds. -/
def cliTypesIntValidate (lo hi : Option ℚ) (v : JSVal) : Except ZIssue ℚ :=
  zNumberValidate true lo hi (intPre v)

/-! ## Schema field introspection (validator.ts, extractSchemaFields)

extractSchemaFields classifies schema nodes with instanceof checks, so the
model is a tree of node kinds.  z.preprocess and .refine and .transform
all build a ZodEffects node.  Numeric checks (int, min, max) live inside
the ZodNumber node; .describe metadata is not represented as it is not
touched by any claim. -/

/-- A default value stored in a ZodDefault node. -/
inductive ZVal
  | num (q : ℚ)
  | str (s : Str)
  | bool (b : Bool)
deriving DecidableEq

/-- Zod schema nodes as classified by instanceof in the source. -/
inductive ZSchema
  | zstring
  | znumber (isInt : Bool) (lo hi : Option ℚ)
  | zboolean
  | zenum (values : List Str)
  | zoptional (inner : ZSchema)
  | zdefault (inner : ZSchema) (defaultValue : ZVal)
  | zeffects (inner : ZSchema)
  | zobject (shape : List (Str × ZSchema))
  | zother

/-- Field metadata (types.ts, SchemaField); dflt models the field named
default in the source. -/
structure SchemaField where
  name : Str
  type : String
  required : Bool
  dflt : Option ZVal
  enumValues : Option (List Str)
deriving DecidableEq

/-- The while loop unwrapping ZodEffects wrappers to reach the inner
schema. -/
def unwrapEffects : ZSchema → ZSchema
  | ZSchema.zeffects inner => unwrapEffects inner
  | s => s

/-- The per-field body of extractSchemaFields: type defaults to string and
required to true; a single ZodOptional wrapper marks the field optional; a
single ZodDefault wrapper marks it optional and captures the default; the
remaining node is classified, with ZodEffects and unrecognized nodes kept
as string. -/
def extractField (name : Str) (fieldSchema : ZSchema) : SchemaField :=
  let step1 : Bool × ZSchema :=
    match fieldSchema with
    | ZSchema.zoptional inner => (false, inner)
    | s => (true, s)
  let step2 : Bool × Option ZVal × ZSchema :=
    match step1.2 with
    | ZSchema.zdefault inner d => (false, some d, inner)
    | s => (step1.1, none, s)
  let classified : String × Option (List Str) :=
    match step2.2.2 with
    | ZSchema.zstring => ("string", none)
    | ZSchema.znumber _ _ _ => ("number", none)
    | ZSchema.zboolean => ("boolean", none)
    | ZSchema.zenum vs => ("enum", some vs)
    | ZSchema.zeffects _ => ("string", none)
    | _ => ("string", none)
  ⟨name, classified.1, step2.1, step2.2.1, classified.2⟩

/-- Source: extractSchemaFields(schema).  Unwrap ZodEffects wrappers; a
non-object schema yields no fields; otherwise map over the shape entries
in declaration order. -/
def extractSchemaFields (schema : ZSchema) : List SchemaField :=
  match unwrapEffects schema with
  | ZSchema.zobject shape => shape.map (fun p => extractField p.1 p.2)
  | _ => []

/-- Schema shape built by cliTypes.int(min?, max?): a ZodEffects node from
z.preprocess wrapping z.number().int() with the optional bounds. -/
def cliTypesIntSchema (lo hi : Option ℚ) : ZSchema :=
  ZSchema.zeffects (ZSchema.znumber true lo hi)

/-- Schema shape built by cliTypes.float(min?, max?). -/
def cliTypesFloatSchema (lo hi : Option ℚ) : ZSchema :=
  ZSchema.zeffects (ZSchema.znumber false lo hi)

/-- Schema shape built by cliTypes.bool(). -/
def cliTypesBoolSchema : ZSchema := ZSchema.zeffects ZSchema.zboolean

/-- Schema shape built by cliTypes.limit(defaultVal, max): a ZodEffects
node wrapping z.number().int().min(1).max(max).default(defaultVal). -/
def cliTypesLimitSchema (defaultVal maxVal : ℚ) : ZSchema :=
  ZSchema.zeffects
    (ZSchema.zdefault (ZSchema.znumber true (some 1) (some maxVal)) (ZVal.num defaultVal))

/-! ## Concrete instances used in claim evaluations and witnesses -/

/-- A command whose schema accepts anything and whose handler throws. -/
def throwingCmd : Cmd :=
  ⟨fun _ => some [], fun _ _ => HandlerOutcome.err (strL "boom")⟩

/-- A command whose schema accepts anything and whose handler succeeds. -/
def okCmd : Cmd :=
  ⟨fun _ => some [], fun _ _ => HandlerOutcome.ok (strL "done")⟩

/-- A command whose schema rejects every input. -/
def rejectingCmd : Cmd :=
  ⟨fun _ => none, fun _ _ => HandlerOutcome.ok (strL "done")⟩

/-- A client whose constructor succeeds and that has a disconnect method. -/
def clientWithDisconnect : ClientSpec := ⟨false, false, true⟩

/-! ## Validity predicate for the transcoder round trip -/

/-- Characters allowed inside a segment of a valid hyphenated identifier:
lowercase ASCII letters and ASCII digits. -/
def isSegChar (c : Char) : Bool := isLowerAscii c || isDigitAscii c

/-- Valid hyphenated identifiers: nonempty lowercase alphanumeric segments
joined by single hyphens, hence no leading or trailing hyphen and no
consecutive hyphens. -/
inductive ValidKebab : Str → Prop
  | seg (s : Str) : s ≠ [] → (∀ c ∈ s, isSegChar c = true) → ValidKebab s
  | join (s rest : Str) : s ≠ [] → (∀ c ∈ s, isSegChar c = true) →
      ValidKebab rest → ValidKebab (s ++ '-' :: rest)

example : kebabToCamel (strL "order-id") = strL "orderId" := by decide
example : kebabToCamel (strL "include-line-items") = strL "includeLineItems" := by decide
example : camelToKebab (strL "orderId") = strL "order-id" := by decide
example : parseArgs [strL "--limit", strL "50", strL "--verbose"] =
    [(strL "limit", Value.str (strL "50")), (strL "verbose", Value.bool true)] := by decide
example : extractCommand [strL "--verbose", strL "list", strL "--limit", strL "5"] =
    some (strL "list") := by decide

/-! ## Helper lemmas -/

theorem contains_false {l : Str} {c : Char} (h : c ∉ l) : l.contains c = false := by
  show l.elem c = false
  rw [List.elem_eq_mem]
  simpa using h

theorem contains_true {l : Str} {c : Char} (h : c ∈ l) : l.contains c = true := by
  show l.elem c = true
  rw [List.elem_eq_mem]
  simpa using h

theorem takeWhile_until_eq {k : Str} (v : Str) (h : '=' ∉ k) :
    (k ++ '=' :: v).takeWhile (fun c => !(c == '=')) = k := by
  induction k with
  | nil => simp
  | cons c t ih =>
    have hc : c ≠ '=' := fun hce => h (hce ▸ List.mem_cons_self c t)
    rw [List.cons_append, List.takeWhile_cons_of_pos (by simp [hc]),
      ih (fun hm => h (List.mem_cons_of_mem c hm))]

theorem dropWhile_until_eq {k : Str} (v : Str) (h : '=' ∉ k) :
    (k ++ '=' :: v).dropWhile (fun c => !(c == '=')) = '=' :: v := by
  induction k with
  | nil => simp
  | cons c t ih =>
    have hc : c ≠ '=' := fun hce => h (hce ▸ List.mem_cons_self c t)
    rw [List.cons_append, List.dropWhile_cons_of_pos (by simp [hc]),
      ih (fun hm => h (List.mem_cons_of_mem c hm))]

theorem eqKey_split {k : Str} (v : Str) (h : '=' ∉ k) : eqKey (k ++ '=' :: v) = k :=
  takeWhile_until_eq v h

theorem eqVal_split {k : Str} (v : Str) (h : '=' ∉ k) : eqVal (k ++ '=' :: v) = v := by
  rw [eqVal, dropWhile_until_eq v h, List.drop_one, List.tail_cons]

/-! ## Claims about the tokenizer -/

/-- Claim C3: the claim states that parseArgs on
["--no-cache", "--status=open"] yields the mapping with noCache mapped to
true and status mapped to "open", as the parseArgs doc comment promises.
The code disagrees: the no- negation branch rewrites the key, so the run
produces cache mapped to false instead, no noCache key at all, and the
derived global noCache flag stays false. -/
theorem C3_noCache_token_divergence :
    parseArgs [strL "--no-cache", strL "--status=open"] =
      [(strL "cache", Value.bool false), (strL "status", Value.str (strL "open"))] ∧
    getArg (parseArgs [strL "--no-cache", strL "--status=open"]) (strL "noCache") = none ∧
    (extractGlobalFlags (parseArgs [strL "--no-cache", strL "--status=open"])).noCache
      = false := by
  decide

/-- Claim C4: a token of the form --no-NAME with no equals sign sets the
transcoded NAME to boolean false, and the following token is not consumed
as a value (the scan continues with the full remainder). -/
theorem C4_no_negation_rule :
    (∀ (acc : RawArgs) (name : Str) (rest : List Str), '=' ∉ name →
      parseArgsGo acc (('-' :: '-' :: 'n' :: 'o' :: '-' :: name) :: rest) =
        parseArgsGo (setArg acc (kebabToCamel name) (Value.bool false)) rest) ∧
    parseArgs [strL "--no-dry-run", strL "value"] = [(strL "dryRun", Value.bool false)] := by
  constructor
  · intro acc name rest h
    have hco : (('-' :: '-' :: 'n' :: 'o' :: '-' :: name : Str)).contains '=' = false := by
      apply contains_false
      simp only [List.mem_cons]
      push_neg
      exact ⟨by decide, by decide, by decide, by decide, by decide, h⟩
    cases rest with
    | nil =>
      simp only [parseArgsGo, hasDashDash, hco, isNoKey, List.drop_succ_cons, List.drop_zero,
        if_true, if_false, Bool.false_eq_true, ite_true, ite_false]
    | cons next rest2 =>
      simp only [parseArgsGo, hasDashDash, hco, isNoKey, List.drop_succ_cons, List.drop_zero,
        if_true, if_false, Bool.false_eq_true, ite_true, ite_false]
  · decide

/-- Claim C6: a token containing an equals sign is split at the first one:
the key before it is transcoded and everything after it, further equals
signs included, is the literal string value; --key=a=b yields key mapped
to "a=b" and --key= yields the empty string value, which is distinct from
boolean true. -/
theorem C6_equals_split :
    (∀ k v : Str, '=' ∉ k →
      parseArgs [('-' :: '-' :: (k ++ '=' :: v))] = [(kebabToCamel k, Value.str v)]) ∧
    parseArgs [strL "--key=a=b"] = [(strL "key", Value.str (strL "a=b"))] ∧
    parseArgs [strL "--key="] = [(strL "key", Value.str [])] ∧
    Value.str [] ≠ Value.bool true := by
  refine ⟨?_, by decide, by decide, by decide⟩
  intro k v h
  have hco : (('-' :: '-' :: (k ++ '=' :: v) : Str)).contains '=' = true := by
    apply contains_true
    exact List.mem_cons_of_mem _ (List.mem_cons_of_mem _ (List.mem_append_right k
      (List.mem_cons_self '=' v)))
  rw [parseArgs]
  simp only [parseArgsGo, hasDashDash, hco, List.drop_succ_cons, List.drop_zero,
    if_true, ite_true]
  rw [eqKey_split v h, eqVal_split v h]
  rfl

/-- Claim C6 witness: the general equation applied at the concrete token
--my-key=x=1, with the hypothesis discharged by evaluation. -/
theorem C6_equals_split_witness :
    parseArgs [('-' :: '-' :: (strL "my-key" ++ '=' :: strL "x=1"))] =
      [(kebabToCamel (strL "my-key"), Value.str (strL "x=1"))] :=
  C6_equals_split.1 (strL "my-key") (strL "x=1") (by decide)

/-- Claim C10: extractCommand returns the first token that does not start
with the double-dash option marker, even when parseArgs consumes that same
token as the value of the preceding option, and a single-dash token such
as -h is returned as the command name while parseArgs ignores it. -/
theorem C10_extractCommand_independent :
    extractCommand [strL "--verbose", strL "list"] = some (strL "list") ∧
    parseArgs [strL "--verbose", strL "list"] =
      [(strL "verbose", Value.str (strL "list"))] ∧
    extractCommand [strL "-h", strL "list"] = some (strL "-h") ∧
    parseArgs [strL "-h"] = [] := by
  decide

/-! ## Claims about the schema introspector -/

/-- Claim C9: a schema field wrapped in a ZodEffects layer, as produced by
the cliTypes helpers, is reported by extractSchemaFields as a required
string field with no default and no enum values, even when the wrapped
schema carries a default, as in cliTypes.limit(50, 250). -/
theorem C9_effects_fields_are_required_strings :
    (∀ (name : Str) (inner : ZSchema) (shape : List (Str × ZSchema)),
      extractSchemaFields (ZSchema.zobject ((name, ZSchema.zeffects inner) :: shape)) =
        ⟨name, "string", true, none, none⟩ :: extractSchemaFields (ZSchema.zobject shape)) ∧
    extractSchemaFields (ZSchema.zobject [(strL "limit", cliTypesLimitSchema 50 250)]) =
      [⟨strL "limit", "string", true, none, none⟩] ∧
    extractSchemaFields (ZSchema.zobject [(strL "count", cliTypesIntSchema none none)]) =
      [⟨strL "count", "string", true, none, none⟩] ∧
    extractSchemaFields (ZSchema.zobject [(strL "ratio", cliTypesFloatSchema none none)]) =
      [⟨strL "ratio", "string", true, none, none⟩] ∧
    extractSchemaFields (ZSchema.zobject [(strL "flag", cliTypesBoolSchema)]) =
      [⟨strL "flag", "string", true, none, none⟩] :=
  ⟨fun _ _ _ => rfl, rfl, rfl, rfl, rfl⟩

/-- Claim C4 witness: the general negation equation applied at the token
--no-cache followed by a further token. -/
theorem C4_no_negation_rule_witness :
    parseArgsGo [] (('-' :: '-' :: 'n' :: 'o' :: '-' :: strL "cache") :: [strL "next"]) =
      parseArgsGo (setArg [] (kebabToCamel (strL "cache")) (Value.bool false))
        [strL "next"] :=
  C4_no_negation_rule.1 [] (strL "cache") [strL "next"] (by decide)

/-! ## Claims about the dispatcher -/

/-- Claim C7: when the global help flag is set, or no command token was
supplied, or the command token is the word help, the run renders help and
exits 0 with no lookup, validation, construction or handler event. -/
theorem C7_help_short_circuit (commands : List (Str × Cmd)) (spec : ClientSpec)
    (argv : List Str)
    (h : (extractGlobalFlags (parseArgs argv)).help = true ∨
      extractCommand argv = none ∨ extractCommand argv = some helpStr) :
    runCli commands spec argv = ⟨[Event.helpShown], 0⟩ := by
  have hcond :
      helpCondition (extractGlobalFlags (parseArgs argv)) (extractCommand argv) = true := by
    rcases h with h | h | h
    · simp [helpCondition, h]
    · simp [helpCondition, h, isFalsyCommand]
    · simp [helpCondition, h]
  simp only [runCli, hcond, if_true, ite_true]

/-- Claim C7 witness: the short circuit at the concrete argv [--help]. -/
theorem C7_help_short_circuit_witness :
    runCli [(strL "go", okCmd)] clientWithDisconnect [strL "--help"] =
      ⟨[Event.helpShown], 0⟩ :=
  C7_help_short_circuit _ _ _ (Or.inl (by decide))

/-- Claim C1: the claim states that whenever the client was successfully
constructed, its disconnect method runs exactly once before the process
terminates, even when the handler throws, and a handler exception exits
with code 1.  The code disagrees on the teardown half: process.exit(1)
inside the catch block terminates Node.js before the finally clause can
run, so on a handler exception disconnect is never invoked; the finally
clause is unreachable on every path because the try block ends in
process.exit(0) and the catch block in process.exit(1).  Exit code 1 does
hold.  Evaluated at the failing input: one registered command go whose
handler throws, a client with a disconnect method, argv [go]: the run
performs no disconnect call at all. -/
theorem C1_disconnect_never_runs :
    runCli [(strL "go", throwingCmd)] clientWithDisconnect [strL "go"] =
      ⟨[Event.commandLookup (strL "go"), Event.clientConstructed, Event.handlerCalled,
        Event.errorOutput ErrKind.execFailed], 1⟩ ∧
    Event.disconnectCalled ∉
      (runCli [(strL "go", throwingCmd)] clientWithDisconnect [strL "go"]).events := by
  decide

/-- Claim C2 counterexample: a run whose command token bogus is not a
registered name, yet which exits 0 rather than 1, because the trailing
--help token sets the global help flag and the help short circuit runs
before lookup.  This falsifies the claim as stated at a concrete input. -/
theorem C2_counterexample_help_wins :
    lookupCmd [(strL "go", okCmd)] (strL "bogus") = none ∧
    extractCommand [strL "bogus", strL "--help"] = some (strL "bogus") ∧
    runCli [(strL "go", okCmd)] clientWithDisconnect [strL "bogus", strL "--help"] =
      ⟨[Event.helpShown], 0⟩ ∧
    (runCli [(strL "go", okCmd)] clientWithDisconnect
      [strL "bogus", strL "--help"]).exitCode ≠ 1 :=
  ⟨rfl, by decide, by decide, by decide⟩

/-- Claim C2 as amended: when the help short circuit is not taken (the
global help flag is unset and a command token is present that is neither
empty nor the word help) and the command token is unregistered or schema
validation fails, the client constructor is never invoked and the run
exits 1. -/
theorem C2_amended_validation_gate (commands : List (Str × Cmd)) (spec : ClientSpec)
    (argv : List Str) (name : Str)
    (hhelp : (extractGlobalFlags (parseArgs argv)).help = false)
    (hcmd : extractCommand argv = some name)
    (hne : name ≠ [])
    (hnh : name ≠ helpStr)
    (hfail : lookupCmd commands name = none ∨
      ∃ cmd, lookupCmd commands name = some cmd ∧ cmd.parse (parseArgs argv) = none) :
    Event.clientConstructed ∉ (runCli commands spec argv).events ∧
    (runCli commands spec argv).exitCode = 1 := by
  have hfa : isFalsyCommand (some name) = false := by
    cases name with
    | nil => exact absurd rfl hne
    | cons a t => rfl
  have hbeq : (some name == some helpStr) = false := by
    simp [hnh]
  have hcond :
      helpCondition (extractGlobalFlags (parseArgs argv)) (some name) = false := by
    simp only [helpCondition, hhelp, hfa, hbeq]
    rfl
  rcases hfail with hnone | ⟨cmd, hsome, hparse⟩
  · simp only [runCli, hcmd, hcond, Bool.false_eq_true, ite_false, if_false,
      Option.getD_some, hnone]
    simp [List.mem_cons]
  · simp only [runCli, hcmd, hcond, Bool.false_eq_true, ite_false, if_false,
      Option.getD_some, hsome, hparse]
    simp [List.mem_cons]

/-- Claim C2 amended witness: the amended claim applied at the concrete
argv [bogus] against a registry containing only the command go. -/
theorem C2_amended_validation_gate_witness :
    Event.clientConstructed ∉
      (runCli [(strL "go", okCmd)] clientWithDisconnect [strL "bogus"]).events ∧
    (runCli [(strL "go", okCmd)] clientWithDisconnect [strL "bogus"]).exitCode = 1 :=
  C2_amended_validation_gate [(strL "go", okCmd)] clientWithDisconnect [strL "bogus"]
    (strL "bogus") (by decide) (by decide) (by decide) (by decide) (Or.inl rfl)

/-! ## Claims about the coercion helpers -/

/-- Claim C8: the cliTypes.int preprocess maps the empty string, undefined
and null to undefined, so downstream optional and default handling applies
and no silent 0 or NaN is accepted (the bare schema then reports a
missing-value invalid_type issue, for any bounds); and an input whose
numeric conversion is not an integer, such as 3.5, becomes NaN, which the
validator rejects rather than silently rounding, again for any bounds:
this covers both a finite non-integer conversion and a NaN conversion. -/
theorem C8_int_coercion_edges :
    intPre (JSVal.str (strL "")) = PreOut.undef ∧
    intPre JSVal.undef = PreOut.undef ∧
    intPre JSVal.jnull = PreOut.undef ∧
    (∀ lo hi, cliTypesIntValidate lo hi (JSVal.str (strL "")) =
      Except.error ZIssue.invalidTypeUndefined) ∧
    cliTypesIntValidate none none (JSVal.str (strL "3.5")) =
      Except.error ZIssue.invalidTypeNaN ∧
    (∀ s q, jsNumber s = some q → q.den ≠ 1 → ∀ lo hi,
      cliTypesIntValidate lo hi (JSVal.str s) = Except.error ZIssue.invalidTypeNaN) ∧
    (∀ s, s ≠ [] → jsNumber s = none → ∀ lo hi,
      cliTypesIntValidate lo hi (JSVal.str s) = Except.error ZIssue.invalidTypeNaN) := by
  refine ⟨rfl, rfl, rfl, fun lo hi => rfl, rfl, ?_, ?_⟩
  · intro s q hs hq lo hi
    cases s with
    | nil =>
      rw [jsNumber] at hs
      have : q = 0 := by injection hs with h; exact h.symm
      subst this
      exact absurd rfl hq
    | cons c t =>
      rw [cliTypesIntValidate]
      have hpre : intPre (JSVal.str (c :: t)) = PreOut.nan := by
        simp only [intPre, hs, if_neg hq, ite_false]
      rw [hpre]
      rfl
  · intro s hne hs lo hi
    cases s with
    | nil => exact absurd rfl hne
    | cons c t =>
      rw [cliTypesIntValidate]
      have hpre : intPre (JSVal.str (c :: t)) = PreOut.nan := by
        simp only [intPre, hs]
      rw [hpre]
      rfl

/-- Claim C8 witness: the non-integer rejection applied at the concrete
input 2.25, whose conversion is the rational 9/4, for the bounds of
cliTypes.int(0, 100). -/
theorem C8_int_coercion_edges_witness :
    cliTypesIntValidate (some 0) (some 100) (JSVal.str (strL "2.25")) =
      Except.error ZIssue.invalidTypeNaN :=
  C8_int_coercion_edges.2.2.2.2.2.1 (strL "2.25") (mkRat 9 4) (by decide) (by decide)
    (some 0) (some 100)

/-! ## Claim C5: round trip of the name transcoder -/

theorem char_toNat_ofNat_valid (n : Nat) (h : n.isValidChar) : (Char.ofNat n).toNat = n := by
  simp [Char.ofNat, h, Char.ofNatAux, Char.toNat, UInt32.toNat, BitVec.toNat_ofNatLt]

theorem isLowerAscii_bounds {c : Char} (h : isLowerAscii c = true) :
    97 ≤ c.toNat ∧ c.toNat ≤ 122 := by
  simpa [isLowerAscii] using h

theorem isUpperAscii_bounds {c : Char} (h : isUpperAscii c = true) :
    65 ≤ c.toNat ∧ c.toNat ≤ 90 := by
  simpa [isUpperAscii] using h

theorem isDigitAscii_bounds {c : Char} (h : isDigitAscii c = true) :
    48 ≤ c.toNat ∧ c.toNat ≤ 57 := by
  simpa [isDigitAscii] using h

theorem segChar_cases {c : Char} (h : isSegChar c = true) :
    isLowerAscii c = true ∨ isDigitAscii c = true := by
  simpa [isSegChar, Bool.or_eq_true] using h

theorem segChar_ne_hyphen {c : Char} (h : isSegChar c = true) : c ≠ '-' := by
  intro hc
  rw [hc] at h
  exact absurd h (by decide)

theorem segChar_not_upper {c : Char} (h : isSegChar c = true) : isUpperAscii c = false := by
  cases hu : isUpperAscii c with
  | false => rfl
  | true =>
    have hb := isUpperAscii_bounds hu
    rcases segChar_cases h with hl | hd
    · have := isLowerAscii_bounds hl
      omega
    · have := isDigitAscii_bounds hd
      omega

theorem not_upper_asciiLower {c : Char} (h : isUpperAscii c = false) :
    asciiLower c = c := by
  rw [asciiLower, if_neg]
  simp [h]

theorem asciiUpper_toNat {c : Char} (h : isLowerAscii c = true) :
    (asciiUpper c).toNat = c.toNat - 32 := by
  have hb := isLowerAscii_bounds h
  rw [asciiUpper, if_pos h]
  exact char_toNat_ofNat_valid _ (Or.inl (by omega))

theorem isUpperAscii_asciiUpper {c : Char} (h : isLowerAscii c = true) :
    isUpperAscii (asciiUpper c) = true := by
  have hb := isLowerAscii_bounds h
  simp only [isUpperAscii, asciiUpper_toNat h, Bool.and_eq_true, decide_eq_true_eq]
  omega

theorem asciiLower_asciiUpper {c : Char} (h : isLowerAscii c = true) :
    asciiLower (asciiUpper c) = c := by
  have hb := isLowerAscii_bounds h
  rw [asciiLower, if_pos (isUpperAscii_asciiUpper h), asciiUpper_toNat h]
  have h32 : c.toNat - 32 + 32 = c.toNat := by omega
  rw [h32, Char.ofNat_toNat]

theorem kebabToCamel_cons_ne {c : Char} (h : c ≠ '-') (l : Str) :
    kebabToCamel (c :: l) = c :: kebabToCamel l := by
  cases l with
  | nil => rfl
  | cons d t =>
    show (if c = '-' ∧ isLowerAscii d = true then asciiUpper d :: kebabToCamel t
      else c :: kebabToCamel (d :: t)) = c :: kebabToCamel (d :: t)
    exact if_neg (fun hcon => h hcon.1)

theorem kebabToCamel_seg_append (s t : Str) (hs : ∀ c ∈ s, isSegChar c = true) :
    kebabToCamel (s ++ t) = s ++ kebabToCamel t := by
  induction s with
  | nil => rfl
  | cons c s' ih =>
    have hc := segChar_ne_hyphen (hs c (List.mem_cons_self c s'))
    rw [List.cons_append, kebabToCamel_cons_ne hc,
      ih (fun a ha => hs a (List.mem_cons_of_mem c ha)), List.cons_append]

theorem kebabToCamel_seg {s : Str} (hs : ∀ c ∈ s, isSegChar c = true) :
    kebabToCamel s = s := by
  have h := kebabToCamel_seg_append s [] hs
  have h2 : kebabToCamel ([] : Str) = [] := rfl
  rw [List.append_nil, h2, List.append_nil] at h
  exact h

theorem hyphenateUppers_append (x y : Str) :
    hyphenateUppers (x ++ y) = hyphenateUppers x ++ hyphenateUppers y := by
  induction x with
  | nil => rfl
  | cons c t ih =>
    by_cases hc : isUpperAscii c = true
    · simp [hyphenateUppers, hc, ih, List.cons_append]
    · simp [hyphenateUppers, hc, ih, List.cons_append]

theorem camelToKebab_append (x y : Str) :
    camelToKebab (x ++ y) = camelToKebab x ++ camelToKebab y := by
  rw [camelToKebab, camelToKebab, camelToKebab, hyphenateUppers_append, List.map_append]

theorem camelToKebab_seg {s : Str} (hs : ∀ c ∈ s, isSegChar c = true) :
    camelToKebab s = s := by
  induction s with
  | nil => rfl
  | cons c t ih =>
    have hc := segChar_not_upper (hs c (List.mem_cons_self c t))
    have ih' := ih (fun a ha => hs a (List.mem_cons_of_mem c ha))
    have hH : hyphenateUppers (c :: t) = c :: hyphenateUppers t := by
      show (if isUpperAscii c then '-' :: c :: hyphenateUppers t
        else c :: hyphenateUppers t) = c :: hyphenateUppers t
      rw [if_neg]
      simp [hc]
    rw [camelToKebab] at ih' ⊢
    rw [hH, List.map_cons, not_upper_asciiLower hc, ih']

theorem camelToKebab_upper_singleton {c : Char} (h : isLowerAscii c = true) :
    camelToKebab [asciiUpper c] = ['-', c] := by
  rw [camelToKebab]
  have hH : hyphenateUppers [asciiUpper c] = ['-', asciiUpper c] := by
    show (if isUpperAscii (asciiUpper c) then '-' :: asciiUpper c :: hyphenateUppers []
      else asciiUpper c :: hyphenateUppers []) = ['-', asciiUpper c]
    rw [if_pos (isUpperAscii_asciiUpper h)]
    rfl
  rw [hH, List.map_cons, List.map_cons, List.map_nil, asciiLower_asciiUpper h,
    not_upper_asciiLower (show isUpperAscii '-' = false from by decide)]

theorem validKebab_head {r : Str} (h : ValidKebab r) :
    ∃ c t, r = c :: t ∧ isSegChar c = true := by
  induction h with
  | seg s hne hall =>
    cases s with
    | nil => exact absurd rfl hne
    | cons c t => exact ⟨c, t, rfl, hall c (List.mem_cons_self c t)⟩
  | join s rest hne hall hrest ih =>
    cases s with
    | nil => exact absurd rfl hne
    | cons c t => exact ⟨c, t ++ '-' :: rest, by simp, hall c (List.mem_cons_self c t)⟩

/-- Claim C5: for every identifier made of lowercase alphanumeric segments
joined by single hyphens, with no leading or trailing hyphen and no
consecutive hyphens, camelToKebab inverts kebabToCamel exactly. -/
theorem C5_transcoder_roundtrip (s : Str) (h : ValidKebab s) :
    camelToKebab (kebabToCamel s) = s := by
  induction h with
  | seg s hne hall =>
    rw [kebabToCamel_seg hall, camelToKebab_seg hall]
  | join s rest hne hall hrest ih =>
    obtain ⟨c, t, rfl, hc⟩ := validKebab_head hrest
    rw [kebabToCamel_seg_append s ('-' :: c :: t) hall]
    by_cases hlow : isLowerAscii c = true
    · have hk1 : kebabToCamel ('-' :: c :: t) = asciiUpper c :: kebabToCamel t := by
        show (if '-' = '-' ∧ isLowerAscii c = true then asciiUpper c :: kebabToCamel t
          else '-' :: kebabToCamel (c :: t)) = asciiUpper c :: kebabToCamel t
        exact if_pos ⟨rfl, hlow⟩
      have hk2 : kebabToCamel (c :: t) = c :: kebabToCamel t :=
        kebabToCamel_cons_ne (segChar_ne_hyphen hc) t
      rw [hk2] at ih
      have hsplit : camelToKebab (c :: kebabToCamel t) =
          c :: camelToKebab (kebabToCamel t) := by
        have happ := camelToKebab_append [c] (kebabToCamel t)
        rw [camelToKebab_seg (show ∀ a ∈ [c], isSegChar a = true from by
          intro a ha
          rw [List.mem_singleton] at ha
          rw [ha]
          exact hc)] at happ
        simpa using happ
      rw [hsplit] at ih
      injection ih with h1 h2
      rw [hk1]
      have hgoal : s ++ asciiUpper c :: kebabToCamel t =
          s ++ [asciiUpper c] ++ kebabToCamel t := by simp
      rw [hgoal, camelToKebab_append, camelToKebab_append, camelToKebab_seg hall,
        camelToKebab_upper_singleton hlow, h2]
      simp
    · have hk1 : kebabToCamel ('-' :: c :: t) = '-' :: kebabToCamel (c :: t) := by
        show (if '-' = '-' ∧ isLowerAscii c = true then asciiUpper c :: kebabToCamel t
          else '-' :: kebabToCamel (c :: t)) = '-' :: kebabToCamel (c :: t)
        exact if_neg (fun hcon => hlow hcon.2)
      rw [hk1]
      have hgoal : s ++ '-' :: kebabToCamel (c :: t) =
          s ++ ['-'] ++ kebabToCamel (c :: t) := by simp
      rw [hgoal, camelToKebab_append, camelToKebab_append, camelToKebab_seg hall,
        show camelToKebab ['-'] = ['-'] from by decide, ih]
      simp

/-- Claim C5 witness: the round trip at the concrete identifier order-id,
with validity established by the constructors of ValidKebab. -/
theorem C5_transcoder_roundtrip_witness :
    camelToKebab (kebabToCamel (strL "order-id")) = strL "order-id" :=
  C5_transcoder_roundtrip (strL "order-id")
    (ValidKebab.join (strL "order") (strL "id") (by decide) (by decide)
      (ValidKebab.seg (strL "id") (by decide) (by decide)))

end CliU
